import Mathlib

/-!
# Verification of the sentinel reverse proxy core

Shallow embedding of the load-balancing, health-checking, routing,
middleware and TLS-resolution logic of the `bpradana/sentinel` gateway,
together with proofs settling the specification claims about it.

Each definition is translated from the corresponding Go function in the
repository; file and function names are given in the doc comments.
Go `int` values are modelled as `Int`, Go strings as `String`, Go maps as
association lists (`List (key × value)`, first binding wins on lookup,
insertion prepends so a later store overrides an earlier one exactly as a
Go map assignment does).
-/

namespace Sentinel

/-! ## Target model (internal/loadbalancer/interface.go)

`Target` mirrors the Go struct: the parsed URL is carried as its source
string, `Weight`, `IsHealthy` and `Connections` keep their meaning.  The
Go zero value of `Connections` is `0`. -/

structure Target where
  url : String
  weight : Int
  isHealthy : Bool
  connections : Int
  deriving Repr, DecidableEq

/-- The subset of targets whose healthy flag is set, in declared order:
the `healthyTargets` filter loop shared by all three strategies. -/
def healthyTargets (targets : List Target) : List Target :=
  targets.filter (·.isHealthy)

/-! ## Round robin (internal/loadbalancer/roundrobin.go)

`RoundRobin.SelectTarget` holds a mutable counter `current`; we pass the
counter explicitly.  `healthyTargets[current % len]` is rendered with
`List.getD`, whose default is never used because the index is reduced
modulo the (positive) length. -/

/-- `RoundRobin.SelectTarget` (roundrobin.go): error on an empty list,
filter the healthy targets, error when none remain, otherwise index the
healthy list by `current` modulo its length. -/
def roundRobinSelect (targets : List Target) (current : Nat) :
    Except String Target :=
  match targets with
  | [] => .error "no targets available"
  | _ :: _ =>
    match healthyTargets targets with
    | [] => .error "no healthy targets available"
    | t :: ts => .ok ((t :: ts).getD (current % (ts.length + 1)) t)

/-! ## Least connections (internal/loadbalancer/leastconn.go)

The Go loop starts with `selected = nil, minConnections = -1`; the first
iteration always fires (the `-1` sentinel), so on a non-empty healthy
list the loop is equivalent to seeding with the head and folding the
tail.  The sentinel comparison `minConnections == -1` is kept verbatim:
should a running minimum of `-1` ever arise the Go loop keeps replacing
the selection, and so does this rendering. -/

/-- The selection loop of `LeastConnections.SelectTarget`: `cur` and
`minC` are the Go `selected` and `minConnections` after the first
iteration. -/
def leastConnLoop (cur : Target) (minC : Int) : List Target → Target
  | [] => cur
  | t :: ts =>
    if minC == -1 || t.connections < minC then
      leastConnLoop t t.connections ts
    else
      leastConnLoop cur minC ts

/-- `LeastConnections.SelectTarget` (leastconn.go). -/
def leastConnSelect (targets : List Target) : Except String Target :=
  match targets with
  | [] => .error "no targets available"
  | _ :: _ =>
    match healthyTargets targets with
    | [] => .error "no healthy targets available"
    | t :: ts => .ok (leastConnLoop t t.connections ts)

/-! ## Client IP extraction

The repository has two distinct extractors.  Requests are modelled by the
header values the code reads; a Go `Header.Get` of an absent header is
the empty string. -/

structure Request where
  xRealIP : String := ""
  xForwardedFor : String := ""
  remoteAddr : String := ""
  host : String := ""
  path : String := ""
  method : String := ""
  xUserID : String := ""
  deriving Repr, DecidableEq

/-- Index of the last `':'` in a character list, as Go's
`last(hostport, ':')` inside `net.SplitHostPort`. -/
def lastColonIdx : List Char → Option Nat
  | [] => none
  | c :: cs =>
    match lastColonIdx cs with
    | some i => some (i + 1)
    | none => if c = ':' then some 0 else none

/-- Model of Go `net.SplitHostPort` (returns `none` where Go returns an
error): the final `':'` separates host and port; a host containing `':'`
must be bracketed `[h]:p`; stray `'['`/`']'` characters are errors. -/
def splitHostPort (s : List Char) : Option (List Char × List Char) :=
  match lastColonIdx s with
  | none => none
  | some i =>
    match s with
    | [] => none
    | c0 :: _ =>
      let port := s.drop (i + 1)
      if c0 = '[' then
        match (s.indexOf ']' : Nat), decide (']' ∈ s) with
        | e, true =>
          if e + 1 = s.length then none
          else if e + 1 = i then
            let host := (s.take e).drop 1
            if '[' ∈ s.drop 1 then none
            else if ']' ∈ s.drop (e + 1) then none
            else some (host, port)
          else none
        | _, false => none
      else
        let host := s.take i
        if ':' ∈ host then none
        else if '[' ∈ s then none
        else if ']' ∈ s then none
        else some (host, port)

/-- Go `strings.Split(s, ",")`: the comma-separated pieces of `s` (at
least one piece, possibly empty). -/
def splitComma : List Char → List (List Char)
  | [] => [[]]
  | c :: cs =>
    if c = ',' then [] :: splitComma cs
    else
      match splitComma cs with
      | p :: ps => (c :: p) :: ps
      | [] => [[c]]

/-- Whitespace per Go `unicode.IsSpace`, restricted to the ASCII space
characters that can occur in an `X-Forwarded-For` value. -/
def isSpaceChar (c : Char) : Bool :=
  c = ' ' || c = '\t' || c = '\n' || c = '\r'

/-- Go `strings.TrimSpace` on a character list. -/
def trimChars (l : List Char) : List Char :=
  ((l.dropWhile isSpaceChar).reverse.dropWhile isSpaceChar).reverse

/-- The `RemoteAddr` fallback shared by both branches of
`IPHash.getClientIP`: split host and port, returning the raw address
when `net.SplitHostPort` errors. -/
def remoteAddrIP (r : Request) : String :=
  match splitHostPort r.remoteAddr.toList with
  | none => r.remoteAddr
  | some (h, _) => String.mk h

/-- `IPHash.getClientIP` (internal/loadbalancer/iphash.go): `X-Real-IP`
when non-empty, else the first comma-separated entry of
`X-Forwarded-For` trimmed of whitespace, else `RemoteAddr` with the port
split off. -/
def ipHashGetClientIP (r : Request) : String :=
  if r.xRealIP ≠ "" then r.xRealIP
  else if r.xForwardedFor ≠ "" then
    match splitComma r.xForwardedFor.toList with
    | ip0 :: _ => String.mk (trimChars ip0)
    | [] => remoteAddrIP r
  else remoteAddrIP r

/-- The package-level `getClientIP` of internal/middleware/ratelimit.go:
`X-Real-IP` when non-empty, else the *entire* `X-Forwarded-For` value,
else the raw `RemoteAddr` (no port stripping, no splitting). -/
def rateLimitGetClientIP (r : Request) : String :=
  if r.xRealIP ≠ "" then r.xRealIP
  else if r.xForwardedFor ≠ "" then r.xForwardedFor
  else r.remoteAddr

/-! ## IP hash (internal/loadbalancer/iphash.go) -/

/-- `IPHash.hashIP`: 32-bit FNV-1a over the UTF-8 bytes of the IP
string (`hash/fnv`, offset basis 2166136261, prime 16777619). -/
def fnv32a (s : String) : Nat :=
  s.toUTF8.toList.foldl
    (fun h b => ((h ^^^ b.toNat) * 16777619) % 2 ^ 32) 2166136261

/-- `IPHash.SelectTarget` (iphash.go): error on an empty list, filter the
healthy targets, error when none remain, otherwise index the healthy
list by the FNV-1a hash of the client IP modulo its length. -/
def ipHashSelect (targets : List Target) (r : Request) :
    Except String Target :=
  match targets with
  | [] => .error "no targets available"
  | _ :: _ =>
    match healthyTargets targets with
    | [] => .error "no healthy targets available"
    | t :: ts =>
      .ok ((t :: ts).getD (fnv32a (ipHashGetClientIP r) % (ts.length + 1)) t)

/-- Soundness of one selection result against the target list it was
drawn from, as claimed by the spec: an error is returned exactly when no
healthy target exists (in particular on the empty list), and a returned
target is a member of the list and healthy (so an unhealthy target is
never returned while a healthy one exists). -/
def selectionSound (targets : List Target) (res : Except String Target) : Prop :=
  match res with
  | .error _ => healthyTargets targets = []
  | .ok t => t ∈ targets ∧ t.isHealthy = true

/-- Indexing a non-empty list with the head as the `getD` default always
lands inside the list. -/
lemma getD_cons_mem {α : Type} (t : α) (ts : List α) (i : Nat) :
    (t :: ts).getD i t ∈ t :: ts := by
  rw [List.getD_eq_getElem?_getD]
  cases h : (t :: ts)[i]? with
  | none => simp
  | some x =>
    simp only [Option.getD_some]
    exact List.getElem?_mem h

/-- The least-connections loop only ever answers with its seed or a
member of the remaining list. -/
lemma leastConnLoop_mem (cur : Target) (minC : Int) (l : List Target) :
    leastConnLoop cur minC l ∈ cur :: l := by
  induction l generalizing cur minC with
  | nil => simp [leastConnLoop]
  | cons t ts ih =>
    unfold leastConnLoop
    split
    · have := ih t t.connections
      rcases List.mem_cons.mp this with h | h
      · simp [h]
      · simp [List.mem_cons, h]
    · have := ih cur minC
      rcases List.mem_cons.mp this with h | h
      · simp [h]
      · simp [List.mem_cons, h]

/-- Members of the healthy filter are healthy members of the original
list. -/
lemma mem_healthyTargets {t : Target} {targets : List Target}
    (h : t ∈ healthyTargets targets) : t ∈ targets ∧ t.isHealthy = true := by
  have := List.mem_filter.mp h
  exact ⟨this.1, by simpa using this.2⟩

/-- C1: for every load-balancing strategy (round_robin, least_connections,
ip_hash) and every target list, `SelectTarget` chooses only from the
subset of targets whose healthy flag is true, returns an error when that
subset is empty (and when the list itself is empty, since then the subset
is empty too), and never returns a target with `healthy = false` — in
particular not while some healthy target exists in the list. -/
theorem selectTarget_only_healthy :
    ∀ (targets : List Target) (current : Nat) (r : Request),
      selectionSound targets (roundRobinSelect targets current) ∧
      selectionSound targets (leastConnSelect targets) ∧
      selectionSound targets (ipHashSelect targets r) := by
  intro targets current r
  refine ⟨?_, ?_, ?_⟩
  · cases targets with
    | nil => simp [roundRobinSelect, selectionSound, healthyTargets]
    | cons t0 ts0 =>
      unfold roundRobinSelect
      cases h : healthyTargets (t0 :: ts0) with
      | nil => simp only [h, selectionSound]
      | cons t ts =>
        simp only [h, selectionSound]
        have hm : (t :: ts).getD (current % (ts.length + 1)) t ∈ t :: ts :=
          getD_cons_mem t ts _
        exact mem_healthyTargets (h ▸ hm)
  · cases targets with
    | nil => simp [leastConnSelect, selectionSound, healthyTargets]
    | cons t0 ts0 =>
      unfold leastConnSelect
      cases h : healthyTargets (t0 :: ts0) with
      | nil => simp only [h, selectionSound]
      | cons t ts =>
        simp only [h, selectionSound]
        have hm : leastConnLoop t t.connections ts ∈ t :: ts :=
          leastConnLoop_mem t t.connections ts
        exact mem_healthyTargets (h ▸ hm)
  · cases targets with
    | nil => simp [ipHashSelect, selectionSound, healthyTargets]
    | cons t0 ts0 =>
      unfold ipHashSelect
      cases h : healthyTargets (t0 :: ts0) with
      | nil => simp only [h, selectionSound]
      | cons t ts =>
        simp only [h, selectionSound]
        have hm : (t :: ts).getD
            (fnv32a (ipHashGetClientIP r) % (ts.length + 1)) t ∈ t :: ts :=
          getD_cons_mem t ts _
        exact mem_healthyTargets (h ▸ hm)

/-! ## Per-request target views (internal/proxy/server.go, createTargets)

`server.createTargets` runs inside the request handler: it walks the
upstream's configured targets, skips any whose URL fails `url.Parse`
(modelled by the `parseOk` predicate), asks the health checker for the
healthy flag, and builds a fresh `Target` whose `Connections` field is
left at the Go zero value `0`. -/

structure TargetConfig where
  url : String
  weight : Int
  deriving Repr, DecidableEq

/-- `server.createTargets`: fresh target views for one request.
`parseOk` stands for `url.Parse` succeeding and `isHealthy` for
`healthChecker.IsHealthy`. -/
def createTargets (parseOk : String → Bool) (isHealthy : String → Bool)
    (cfgs : List TargetConfig) : List Target :=
  cfgs.filterMap fun tc =>
    if parseOk tc.url then
      some { url := tc.url, weight := tc.weight,
             isHealthy := isHealthy tc.url, connections := 0 }
    else none

/-- When the seed has zero connections and so does every remaining
target, the least-connections loop never replaces the seed (the sentinel
`-1` test fails and `0 < 0` fails). -/
lemma leastConnLoop_zero (cur : Target) (l : List Target)
    (hl : ∀ x ∈ l, x.connections = 0) :
    leastConnLoop cur 0 l = cur := by
  induction l with
  | nil => rfl
  | cons t ts ih =>
    have ht : t.connections = 0 := hl t (by simp)
    unfold leastConnLoop
    rw [if_neg]
    · exact ih fun x hx => hl x (by simp [hx])
    · simp [ht]

/-- C9: the Target views handed to `SelectTarget` are built fresh by
`createTargets` with `Connections = 0` for every target, so the
least-connections strategy sees all-equal inflight counts and (ties
broken by first occurrence) returns the first healthy target in declared
order. -/
theorem createTargets_zero_connections_leastConn_first :
    ∀ (parseOk isHealthy : String → Bool) (cfgs : List TargetConfig),
      (∀ t ∈ createTargets parseOk isHealthy cfgs, t.connections = 0) ∧
      (∀ t, leastConnSelect (createTargets parseOk isHealthy cfgs) = .ok t →
        (healthyTargets (createTargets parseOk isHealthy cfgs)).head? = some t) := by
  intro parseOk isHealthy cfgs
  have hzero : ∀ t ∈ createTargets parseOk isHealthy cfgs, t.connections = 0 := by
    intro t ht
    rcases List.mem_filterMap.mp ht with ⟨tc, _, htc⟩
    by_cases hp : parseOk tc.url
    · rw [if_pos hp] at htc
      cases htc
      rfl
    · rw [if_neg hp] at htc
      cases htc
  refine ⟨hzero, ?_⟩
  intro t hsel
  unfold leastConnSelect at hsel
  cases hts : createTargets parseOk isHealthy cfgs with
  | nil => rw [hts] at hsel; cases hsel
  | cons t0 ts0 =>
    rw [hts] at hsel
    cases hh : healthyTargets (t0 :: ts0) with
    | nil => rw [hh] at hsel; cases hsel
    | cons u us =>
      rw [hh] at hsel
      have hu : u ∈ createTargets parseOk isHealthy cfgs := by
        rw [hts]
        exact (mem_healthyTargets (hh ▸ List.mem_cons_self u us)).1
      have hu0 : u.connections = 0 := hzero u hu
      have hus : ∀ x ∈ us, x.connections = 0 := by
        intro x hx
        refine hzero x ?_
        rw [hts]
        exact (mem_healthyTargets (hh ▸ List.mem_cons_of_mem u hx)).1
      change Except.ok (leastConnLoop u u.connections us) = Except.ok t at hsel
      rw [hu0, leastConnLoop_zero u us hus] at hsel
      cases hsel
      rfl

/-- Witness for `createTargets_zero_connections_leastConn_first`: a
three-target upstream where only the middle target is healthy. -/
theorem createTargets_zero_connections_leastConn_first_witness :
    (∀ t ∈ createTargets (fun _ => true) (fun u => u == "http://b")
        [⟨"http://a", 1⟩, ⟨"http://b", 2⟩, ⟨"http://c", 3⟩], t.connections = 0) ∧
      (healthyTargets (createTargets (fun _ => true) (fun u => u == "http://b")
        [⟨"http://a", 1⟩, ⟨"http://b", 2⟩, ⟨"http://c", 3⟩])).head? =
        some { url := "http://b", weight := 2, isHealthy := true, connections := 0 } :=
  ⟨(createTargets_zero_connections_leastConn_first _ _ _).1,
    (createTargets_zero_connections_leastConn_first _ _ _).2
      { url := "http://b", weight := 2, isHealthy := true, connections := 0 }
      (by rfl)⟩

/-! ## Health state machine (internal/health/checker.go) -/

inductive HealthStatus where
  | unknown
  | healthy
  | unhealthy
  deriving Repr, DecidableEq

/-- `TargetHealth` (internal/health/checker.go), restricted to the fields
the update step reads and writes. -/
structure TargetHealth where
  url : String
  status : HealthStatus
  consecutiveFailures : Int := 0
  consecutiveSuccesses : Int := 0
  deriving Repr, DecidableEq

/-- `HealthCheckConfig` (internal/config), the fields consumed by the
checker. -/
structure HealthCheckConfig where
  enabled : Bool
  path : String
  failureThreshold : Int
  successThreshold : Int
  deriving Repr, DecidableEq

/-- `checker.updateTargetHealth` (checker.go): on a 2xx outcome
(`isHealthy = true`) increment the success streak, reset the failure
streak, and become `Healthy` once the streak reaches the success
threshold, otherwise keep the previous status; dually for a failure
outcome. -/
def updateTargetHealth (existing : TargetHealth) (isHealthy : Bool)
    (cfg : HealthCheckConfig) : TargetHealth :=
  if isHealthy then
    let cs := existing.consecutiveSuccesses + 1
    { url := existing.url
      consecutiveSuccesses := cs
      consecutiveFailures := 0
      status := if cs ≥ cfg.successThreshold then .healthy else existing.status }
  else
    let cf := existing.consecutiveFailures + 1
    { url := existing.url
      consecutiveFailures := cf
      consecutiveSuccesses := 0
      status := if cf ≥ cfg.failureThreshold then .unhealthy else existing.status }

/-- C3: one update step of the health state machine. On a success the
success streak is incremented, the failure streak reset, and the status
becomes `Healthy` exactly when the streak reaches the success threshold
(otherwise the previous status is kept); dually on a failure.  Hence the
status changes on a failure step only with at least `failureThreshold`
consecutive failures recorded, and changes on a success step only with at
least `successThreshold` consecutive successes recorded. -/
theorem updateTargetHealth_step (existing : TargetHealth)
    (cfg : HealthCheckConfig) :
    ((updateTargetHealth existing true cfg).consecutiveSuccesses =
        existing.consecutiveSuccesses + 1 ∧
      (updateTargetHealth existing true cfg).consecutiveFailures = 0 ∧
      (updateTargetHealth existing true cfg).status =
        (if existing.consecutiveSuccesses + 1 ≥ cfg.successThreshold then
          HealthStatus.healthy else existing.status)) ∧
    ((updateTargetHealth existing false cfg).consecutiveFailures =
        existing.consecutiveFailures + 1 ∧
      (updateTargetHealth existing false cfg).consecutiveSuccesses = 0 ∧
      (updateTargetHealth existing false cfg).status =
        (if existing.consecutiveFailures + 1 ≥ cfg.failureThreshold then
          HealthStatus.unhealthy else existing.status)) ∧
    ((updateTargetHealth existing false cfg).status ≠ existing.status →
      cfg.failureThreshold ≤
        (updateTargetHealth existing false cfg).consecutiveFailures) ∧
    ((updateTargetHealth existing true cfg).status ≠ existing.status →
      cfg.successThreshold ≤
        (updateTargetHealth existing true cfg).consecutiveSuccesses) := by
  refine ⟨⟨rfl, rfl, rfl⟩, ⟨rfl, rfl, rfl⟩, ?_, ?_⟩
  · intro hne
    unfold updateTargetHealth at *
    by_cases hth : existing.consecutiveFailures + 1 ≥ cfg.failureThreshold
    · simpa using hth
    · simp only [if_neg hth] at hne
      exact absurd rfl hne
  · intro hne
    unfold updateTargetHealth at *
    by_cases hth : existing.consecutiveSuccesses + 1 ≥ cfg.successThreshold
    · simpa using hth
    · simp only [if_neg hth] at hne
      exact absurd rfl hne

/-- Witness for `updateTargetHealth_step`: a healthy record with two
recorded consecutive failures flips to unhealthy on the third failure
under `failure_threshold = 3`. -/
theorem updateTargetHealth_step_witness :
    (3 : Int) ≤ (updateTargetHealth
        { url := "http://a", status := .healthy, consecutiveFailures := 2,
          consecutiveSuccesses := 0 } false
        { enabled := true, path := "/health", failureThreshold := 3,
          successThreshold := 2 }).consecutiveFailures :=
  (updateTargetHealth_step
    { url := "http://a", status := .healthy, consecutiveFailures := 2,
      consecutiveSuccesses := 0 }
    { enabled := true, path := "/health", failureThreshold := 3,
      successThreshold := 2 }).2.2.1 (by decide)

/-! ## Checker registry (internal/health/checker.go)

The checker's `targets` map is modelled as an association list; `lookup`
is the Go map read, and prepending a binding is the Go map write
(`registerTarget` only writes absent keys, so no shadowing arises). -/

/-- `checker.IsHealthy`: `true` for a URL with no recorded entry
("Default to healthy for unknown targets"), otherwise a comparison of
the recorded status with `StatusHealthy`. -/
def checkerIsHealthy (st : List (String × TargetHealth)) (url : String) : Bool :=
  match st.lookup url with
  | none => true
  | some h => h.status == .healthy

/-- `checker.registerTarget`: insert a `StatusUnknown` record for an
unregistered URL, leave a registered one alone. -/
def registerTarget (st : List (String × TargetHealth)) (url : String) :
    List (String × TargetHealth) :=
  match st.lookup url with
  | some _ => st
  | none => (url, { url := url, status := .unknown }) :: st

/-- `checker.CheckTarget`: when the health-check config is disabled the
probe is skipped and a `StatusHealthy` record is returned ("Assume
healthy if checks disabled"); otherwise the existing record (or a fresh
`StatusUnknown` one) is advanced by `updateTargetHealth` with the probe
outcome.  The HTTP probe itself is I/O and enters as the `probeHealthy`
flag (`true` exactly on a 2xx response; request-construction and
transport errors are failures). -/
def checkTarget (st : List (String × TargetHealth)) (url : String)
    (cfg : HealthCheckConfig) (probeHealthy : Bool) : TargetHealth :=
  if ¬cfg.enabled then { url := url, status := .healthy }
  else
    updateTargetHealth
      ((st.lookup url).getD { url := url, status := .unknown })
      probeHealthy cfg

/-- C4 counterexample: a target that is registered but never probed is
recorded with status `Unknown`, yet `IsHealthy` answers `false` for it —
refuting the claim that every target in the Unknown health state is
reported healthy. -/
theorem checker_isHealthy_unknown_counterexample :
    ((registerTarget [] "http://a:8080").lookup "http://a:8080" =
        some { url := "http://a:8080", status := .unknown }) ∧
      checkerIsHealthy (registerTarget [] "http://a:8080") "http://a:8080" = false := by
  exact ⟨rfl, rfl⟩

/-- C4 amended: `IsHealthy` returns `true` for a target with no recorded
entry (never probed and never registered) and otherwise compares the
recorded status to `Healthy`; hence a registered-but-never-probed target
(recorded `Unknown`) yields `false`, while a target whose health checking
is disabled yields `true` because a disabled check records `Healthy`. -/
theorem checker_isHealthy_amended :
    ∀ (st : List (String × TargetHealth)) (url : String),
      (st.lookup url = none → checkerIsHealthy st url = true) ∧
      (∀ h, st.lookup url = some h →
        checkerIsHealthy st url = (h.status == .healthy)) ∧
      (st.lookup url = none →
        checkerIsHealthy (registerTarget st url) url = false) ∧
      (∀ cfg probeHealthy, cfg.enabled = false →
        (checkTarget st url cfg probeHealthy).status = .healthy) := by
  intro st url
  refine ⟨?_, ?_, ?_, ?_⟩
  · intro h
    unfold checkerIsHealthy
    rw [h]
  · intro rec hrec
    unfold checkerIsHealthy
    rw [hrec]
  · intro h
    unfold registerTarget
    rw [h]
    unfold checkerIsHealthy
    simp [List.lookup]
  · intro cfg probeHealthy hcfg
    unfold checkTarget
    rw [hcfg]
    rfl

/-- Witness for `checker_isHealthy_amended` on a concrete registry: a
never-recorded URL reads healthy, registering it flips the answer to
`false`, and a disabled check records `Healthy`. -/
theorem checker_isHealthy_amended_witness :
    checkerIsHealthy [("http://b", { url := "http://b", status := .healthy })]
        "http://a" = true ∧
      checkerIsHealthy
        (registerTarget [("http://b", { url := "http://b", status := .healthy })]
          "http://a") "http://a" = false ∧
      (checkTarget [] "http://a"
        { enabled := false, path := "/health", failureThreshold := 3,
          successThreshold := 2 } false).status = HealthStatus.healthy :=
  ⟨(checker_isHealthy_amended
      [("http://b", { url := "http://b", status := .healthy })] "http://a").1 rfl,
    (checker_isHealthy_amended
      [("http://b", { url := "http://b", status := .healthy })] "http://a").2.2.1 rfl,
    (checker_isHealthy_amended [] "http://a").2.2.2
      { enabled := false, path := "/health", failureThreshold := 3,
        successThreshold := 2 } false rfl⟩

/-! ## Retry middleware (internal/proxy/server.go, retryHandler)

`retryHandler.ServeHTTP` wraps the client-facing response writer in a
`retryResponseWriter` and re-runs the wrapped handler while the captured
status is ≥ 500.  The wrapper records the first status of each attempt
and *forwards every call to the underlying writer*: `WriteHeader`
forwards unless the wrapper has already seen a header this attempt, and
`Write` forwards unconditionally (emitting an implicit `WriteHeader 200`
first if none was seen).  Only the wrapper's two fields are reset
between attempts — the underlying writer is not.

A handler is modelled as the sequence of writer calls it makes on each
attempt; the underlying writer as the list of calls forwarded to it.
`net/http` semantics for the real connection: the first `WriteHeader`
fixes the client-visible status (later ones are "superfluous" no-ops)
and every `Write` body reaches the client. -/

inductive WEvent where
  | writeHeader (status : Nat)
  | write (body : String)
  deriving Repr, DecidableEq

/-- The two mutable fields of `retryResponseWriter`. -/
structure RWState where
  statusCode : Nat
  written : Bool
  deriving Repr, DecidableEq

/-- Run one attempt's writer calls through `retryResponseWriter`,
returning the final wrapper state and the calls forwarded to the
underlying writer. -/
def runEvents : List WEvent → RWState → RWState × List WEvent
  | [], st => (st, [])
  | .writeHeader s :: rest, st =>
    if st.written then runEvents rest st
    else
      let r := runEvents rest { statusCode := s, written := true }
      (r.1, .writeHeader s :: r.2)
  | .write d :: rest, st =>
    if st.written then
      let r := runEvents rest st
      (r.1, .write d :: r.2)
    else
      let r := runEvents rest { statusCode := 200, written := true }
      (r.1, .writeHeader 200 :: .write d :: r.2)

/-- Wrapper state captured from attempt `i` (each attempt starts from the
reset state `statusCode = 0, written = false`). -/
def attemptState (handler : Nat → List WEvent) (i : Nat) : RWState :=
  (runEvents (handler i) { statusCode := 0, written := false }).1

/-- Calls forwarded to the underlying writer during attempt `i`. -/
def attemptOut (handler : Nat → List WEvent) (i : Nat) : List WEvent :=
  (runEvents (handler i) { statusCode := 0, written := false }).2

/-- The retry loop of `retryHandler.ServeHTTP`, indexed by the number of
attempts still allowed after the current one (`attemptsLeft =
retryPolicy.Attempts - attempt`).  Returns the calls accumulated on the
underlying writer and the number of handler invocations. -/
def retryLoop (handler : Nat → List WEvent) :
    Nat → Nat → List WEvent × Nat
  | 0, attempt => ((runEvents (handler attempt) ⟨0, false⟩).2, 1)
  | n + 1, attempt =>
    let r := runEvents (handler attempt) ⟨0, false⟩
    if r.1.statusCode < 500 then (r.2, 1)
    else
      let rest := retryLoop handler n (attempt + 1)
      (r.2 ++ rest.1, rest.2 + 1)

/-- `retryHandler.ServeHTTP` with `retryPolicy.Attempts = attempts`. -/
def retryServe (attempts : Nat) (handler : Nat → List WEvent) :
    List WEvent × Nat :=
  retryLoop handler attempts 0

/-- Client-visible status of a call sequence: the first `WriteHeader`
(later ones are superfluous for `net/http`). -/
def effectiveStatus : List WEvent → Option Nat
  | [] => none
  | .writeHeader s :: _ => some s
  | .write _ :: rest => effectiveStatus rest

/-- Client-visible body of a call sequence: all `Write` payloads in
order. -/
def effectiveBody : List WEvent → String
  | [] => ""
  | .writeHeader _ :: rest => effectiveBody rest
  | .write d :: rest => d ++ effectiveBody rest

/-- A backend that answers 503 on the first attempt and 200 afterwards. -/
def retryDemoHandler : Nat → List WEvent
  | 0 => [.writeHeader 503, .write "bad gateway"]
  | _ + 1 => [.writeHeader 200, .write "ok"]

/-- C2 counterexample: with `attempts = 1` and a handler that answers
503 then 200, the non-final attempt's 503 *is* forwarded to the
underlying writer, and the client-visible status is the first attempt's
503 — not the last attempt's 200 — with both attempts' bodies
concatenated. -/
theorem retry_forwards_5xx_counterexample :
    (retryServe 1 retryDemoHandler).1 =
        [.writeHeader 503, .write "bad gateway", .writeHeader 200, .write "ok"] ∧
      WEvent.writeHeader 503 ∈ (retryServe 1 retryDemoHandler).1 ∧
      (retryServe 1 retryDemoHandler).2 = 2 ∧
      (attemptState retryDemoHandler 1).statusCode = 200 ∧
      effectiveStatus (retryServe 1 retryDemoHandler).1 = some 503 ∧
      effectiveBody (retryServe 1 retryDemoHandler).1 = "bad gatewayok" := by
  refine ⟨rfl, ?_, rfl, rfl, rfl, rfl⟩
  decide

/-- Concatenation of the forwarded calls of `n` consecutive attempts
starting at attempt `start`. -/
def attemptsConcat (handler : Nat → List WEvent) (start : Nat) :
    Nat → List WEvent
  | 0 => []
  | n + 1 => attemptOut handler start ++ attemptsConcat handler (start + 1) n

/-- The first `WriteHeader` of an appended sequence is the first of the
left part when it has one. -/
lemma effectiveStatus_append (a b : List WEvent) :
    effectiveStatus (a ++ b) =
      (effectiveStatus a).elim (effectiveStatus b) some := by
  induction a with
  | nil => rfl
  | cons e rest ih =>
    cases e with
    | writeHeader s => rfl
    | write d => simpa [effectiveStatus] using ih

/-- Behaviour of the retry loop: at most `left + 1` and at least one
handler invocation, the underlying writer receives every invoked
attempt's forwarded calls in order, and a further attempt is entered
only when the previous captured status was ≥ 500. -/
lemma retryLoop_spec (handler : Nat → List WEvent) :
    ∀ (left start : Nat),
      (retryLoop handler left start).2 ≤ left + 1 ∧
      1 ≤ (retryLoop handler left start).2 ∧
      (retryLoop handler left start).1 =
        attemptsConcat handler start (retryLoop handler left start).2 ∧
      ∀ j, j + 1 < (retryLoop handler left start).2 →
        500 ≤ (attemptState handler (start + j)).statusCode := by
  intro left
  induction left with
  | zero =>
    intro start
    refine ⟨le_refl _, le_refl _, ?_, ?_⟩
    · show attemptOut handler start =
        attemptsConcat handler start 1
      simp [attemptsConcat]
    · intro j hj
      simp [retryLoop] at hj
  | succ n ih =>
    intro start
    have hstep : retryLoop handler (n + 1) start =
        if (attemptState handler start).statusCode < 500
        then (attemptOut handler start, 1)
        else (attemptOut handler start ++ (retryLoop handler n (start + 1)).1,
          (retryLoop handler n (start + 1)).2 + 1) := rfl
    by_cases h : (attemptState handler start).statusCode < 500
    · have hred : retryLoop handler (n + 1) start =
          (attemptOut handler start, 1) := by
        rw [hstep, if_pos h]
      rw [hred]
      refine ⟨by omega, le_refl _, ?_, ?_⟩
      · simp [attemptsConcat]
      · intro j hj
        omega
    · have hred : retryLoop handler (n + 1) start =
          (attemptOut handler start ++ (retryLoop handler n (start + 1)).1,
            (retryLoop handler n (start + 1)).2 + 1) := by
        rw [hstep, if_neg h]
      obtain ⟨ihc, ihp, ihe, ihs⟩ := ih (start + 1)
      rw [hred]
      refine ⟨by omega, by omega, ?_, ?_⟩
      · obtain ⟨k, hk⟩ : ∃ k, (retryLoop handler n (start + 1)).2 = k + 1 :=
          ⟨(retryLoop handler n (start + 1)).2 - 1, by omega⟩
        rw [hk]
        show attemptOut handler start ++ (retryLoop handler n (start + 1)).1 =
          attemptOut handler start ++ attemptsConcat handler (start + 1) (k + 1)
        rw [ihe, hk]
      · intro j hj
        cases j with
        | zero =>
          simpa using Nat.le_of_not_lt h
        | succ k =>
          have : start + (k + 1) = (start + 1) + k := by omega
          rw [this]
          exact ihs k (by omega)

/-- C2 amended: the retry middleware invokes the wrapped handler at most
`attempts + 1` times (and at least once), re-invoking only while the
captured status of the previous attempt is ≥ 500; but the wrapper does
not buffer — every attempt's calls (status and body) are forwarded to
the underlying client-facing writer in order, so the status the client
receives is the *first* attempt's status (when that attempt wrote one)
and the body is the concatenation of all attempts' bodies. -/
theorem retryServe_amended :
    ∀ (attempts : Nat) (handler : Nat → List WEvent),
      (retryServe attempts handler).2 ≤ attempts + 1 ∧
      1 ≤ (retryServe attempts handler).2 ∧
      (retryServe attempts handler).1 =
        attemptsConcat handler 0 (retryServe attempts handler).2 ∧
      (∀ j, j + 1 < (retryServe attempts handler).2 →
        500 ≤ (attemptState handler j).statusCode) ∧
      ∀ s, effectiveStatus (attemptOut handler 0) = some s →
        effectiveStatus (retryServe attempts handler).1 = some s := by
  intro attempts handler
  obtain ⟨hc, hp, he, hs⟩ := retryLoop_spec handler attempts 0
  refine ⟨hc, hp, he, ?_, ?_⟩
  · intro j hj
    simpa using hs j hj
  · intro s hfirst
    show effectiveStatus (retryLoop handler attempts 0).1 = some s
    rw [he]
    obtain ⟨k, hk⟩ : ∃ k, (retryLoop handler attempts 0).2 = k + 1 :=
      ⟨(retryLoop handler attempts 0).2 - 1, by omega⟩
    rw [hk]
    show effectiveStatus
      (attemptOut handler 0 ++ attemptsConcat handler 1 k) = some s
    rw [effectiveStatus_append, hfirst]
    rfl

/-- Witness for `retryServe_amended` on the 503-then-200 handler with
one configured retry: the first attempt's captured status is ≥ 500 and
the client-visible status of the whole exchange is that 503. -/
theorem retryServe_amended_witness :
    500 ≤ (attemptState retryDemoHandler 0).statusCode ∧
      effectiveStatus (retryServe 1 retryDemoHandler).1 = some 503 :=
  ⟨(retryServe_amended 1 retryDemoHandler).2.2.2.1 0 (by decide),
    (retryServe_amended 1 retryDemoHandler).2.2.2.2 503 (by rfl)⟩

/-! ## The two client-IP extractors disagree (claim C5) -/

/-- C5 counterexample: on a request carrying `X-Forwarded-For:
"10.0.0.1, 10.0.0.2"` (and no `X-Real-IP`) the ip_hash extractor returns
the first trimmed entry while the rate-limit extractor returns the whole
header value; on a request with only a remote address the ip_hash
extractor strips the port while the rate-limit extractor keeps it.  The
two functions therefore do not agree on every request. -/
theorem getClientIP_disagreement_counterexample :
    ipHashGetClientIP { xForwardedFor := "10.0.0.1, 10.0.0.2" } = "10.0.0.1" ∧
      rateLimitGetClientIP { xForwardedFor := "10.0.0.1, 10.0.0.2" } =
        "10.0.0.1, 10.0.0.2" ∧
      ipHashGetClientIP { xForwardedFor := "10.0.0.1, 10.0.0.2" } ≠
        rateLimitGetClientIP { xForwardedFor := "10.0.0.1, 10.0.0.2" } ∧
      ipHashGetClientIP { remoteAddr := "192.168.1.9:52100" } = "192.168.1.9" ∧
      rateLimitGetClientIP { remoteAddr := "192.168.1.9:52100" } =
        "192.168.1.9:52100" := by
  refine ⟨rfl, rfl, ?_, ?_, rfl⟩
  · decide
  · rfl

/-- C5 amended: the ip_hash extractor follows the claimed precedence
(`X-Real-IP`, else first trimmed `X-Forwarded-For` entry, else remote
address with the port split off), but the rate-limit extractor returns
`X-Real-IP`, else the *entire* `X-Forwarded-For` value, else the raw
remote address; the two agree on every request whose `X-Real-IP` header
is non-empty. -/
theorem getClientIP_amended :
    ∀ r : Request,
      (r.xRealIP ≠ "" →
        ipHashGetClientIP r = r.xRealIP ∧ rateLimitGetClientIP r = r.xRealIP) ∧
      (r.xRealIP = "" → r.xForwardedFor ≠ "" →
        rateLimitGetClientIP r = r.xForwardedFor) ∧
      (r.xRealIP = "" → r.xForwardedFor = "" →
        rateLimitGetClientIP r = r.remoteAddr ∧
        ∀ h p, splitHostPort r.remoteAddr.toList = some (h, p) →
          ipHashGetClientIP r = String.mk h) := by
  intro r
  refine ⟨?_, ?_, ?_⟩
  · intro hreal
    unfold ipHashGetClientIP rateLimitGetClientIP
    rw [if_pos hreal, if_pos hreal]
    exact ⟨rfl, rfl⟩
  · intro hreal hfwd
    unfold rateLimitGetClientIP
    rw [if_neg (not_not_intro hreal), if_pos hfwd]
  · intro hreal hfwd
    constructor
    · unfold rateLimitGetClientIP
      rw [if_neg (not_not_intro hreal), if_neg (not_not_intro hfwd)]
    · intro h p hsp
      unfold ipHashGetClientIP
      rw [if_neg (not_not_intro hreal), if_neg (not_not_intro hfwd)]
      unfold remoteAddrIP
      rw [hsp]

/-- Witness for `getClientIP_amended` on concrete requests exercising
each branch. -/
theorem getClientIP_amended_witness :
    (ipHashGetClientIP { xRealIP := "7.7.7.7", xForwardedFor := "8.8.8.8" } =
        "7.7.7.7" ∧
      rateLimitGetClientIP { xRealIP := "7.7.7.7", xForwardedFor := "8.8.8.8" } =
        "7.7.7.7") ∧
      rateLimitGetClientIP { xForwardedFor := "6.6.6.6" } = "6.6.6.6" ∧
      rateLimitGetClientIP { remoteAddr := "5.5.5.5:80" } = "5.5.5.5:80" ∧
      ipHashGetClientIP { remoteAddr := "5.5.5.5:80" } = "5.5.5.5" := by
  refine ⟨(getClientIP_amended _).1 (by decide),
    (getClientIP_amended { xForwardedFor := "6.6.6.6" }).2.1 rfl (by decide),
    ((getClientIP_amended { remoteAddr := "5.5.5.5:80" }).2.2 rfl rfl).1,
    ?_⟩
  exact ((getClientIP_amended { remoteAddr := "5.5.5.5:80" }).2.2 rfl rfl).2
    "5.5.5.5".toList "80".toList (by decide)

/-! ## JWT auth middleware (internal/middleware/auth.go)

`AuthMiddleware.validateToken` delegates parsing and signature checking
to `jwt.ParseWithClaims` (golang-jwt/jwt/v5) with a keyfunc that type-
asserts the token's method against `*jwt.SigningMethodHMAC`.  A token is
modelled by its `alg` header, whether its signature verifies under that
algorithm with the configured secret, and the claims the code reads. -/

inductive JwtAlg where
  | HS256
  | HS384
  | HS512
  | RS256
  | ES256
  | algNone
  deriving Repr, DecidableEq

/-- The keyfunc's type assertion `token.Method.(*jwt.SigningMethodHMAC)`
succeeds exactly for the three HMAC methods golang-jwt registers:
HS256, HS384 and HS512. -/
def isHMAC : JwtAlg → Bool
  | .HS256 | .HS384 | .HS512 => true
  | _ => false

structure JwtToken where
  alg : JwtAlg
  sigValid : Bool
  expiresAt : Option Int
  issuer : String
  userId : String := ""
  email : String := ""
  roles : List String := []
  deriving Repr, DecidableEq

structure AuthConfig where
  jwtSecret : String
  jwtIssuer : String
  skipPaths : List String := []
  deriving Repr, DecidableEq

/-- Model of `jwt.ParseWithClaims` (golang-jwt/jwt/v5) under the keyfunc
of `AuthMiddleware.validateToken`: error when the method is not HMAC
(the keyfunc's "unexpected signing method"), when the signature does not
verify with the configured secret, or when the registered `exp` claim —
if present — lies in the past (the v5 parser's default claim
validation). -/
def jwtParseWithClaims (now : Int) (tok : JwtToken) : Except String JwtToken :=
  if isHMAC tok.alg = false then .error "unexpected signing method"
  else if tok.sigValid = false then .error "token signature is invalid"
  else
    match tok.expiresAt with
    | some e => if e < now then .error "token is expired" else .ok tok
    | none => .ok tok

/-- `AuthMiddleware.validateToken`: parse (which already enforces the
HMAC-only keyfunc, the signature and `exp`), then re-check the issuer
(only when one is configured) and `exp` explicitly. -/
def validateToken (cfg : AuthConfig) (now : Int) (tok : JwtToken) :
    Except String JwtToken :=
  match jwtParseWithClaims now tok with
  | .error e => .error e
  | .ok t =>
    if cfg.jwtIssuer ≠ "" ∧ t.issuer ≠ cfg.jwtIssuer then
      .error "invalid token issuer"
    else
      match t.expiresAt with
      | some e => if e < now then .error "token expired" else .ok t
      | none => .ok t

/-- Go `strings.Join(roles, ",")`. -/
def joinComma : List String → String
  | [] => ""
  | [x] => x
  | x :: y :: xs => x ++ "," ++ joinComma (y :: xs)

inductive AuthOutcome where
  | unauthorized
  | passedThrough
  | authenticated (userId email rolesJoined : String)
  deriving Repr, DecidableEq

/-- `AuthMiddleware.Handle`: skip authentication on configured path
prefixes; answer 401 when extraction or validation fails; otherwise
inject the `X-User-ID`, `X-User-Email` and comma-joined `X-User-Roles`
headers and forward.  Token extraction (header/cookie/query) enters as
its result `extracted`. -/
def authHandle (cfg : AuthConfig) (now : Int) (path : String)
    (extracted : Except String JwtToken) : AuthOutcome :=
  if cfg.skipPaths.any (fun sp => sp.toList.isPrefixOf path.toList) then
    .passedThrough
  else
    match extracted with
    | .error _ => .unauthorized
    | .ok tok =>
      match validateToken cfg now tok with
      | .error _ => .unauthorized
      | .ok t => .authenticated t.userId t.email (joinComma t.roles)

/-- A well-signed, unexpired HS384 token. -/
def hs384Token : JwtToken :=
  { alg := .HS384, sigValid := true, expiresAt := none, issuer := "",
    userId := "u1" }

/-- An `alg: none` token (never carries a verifiable HMAC signature). -/
def algNoneToken : JwtToken :=
  { alg := .algNone, sigValid := false, expiresAt := none, issuer := "issuer" }

/-- Auth middleware configured with a secret and no expected issuer. -/
def authCfgNoIssuer : AuthConfig := { jwtSecret := "secret", jwtIssuer := "" }

/-- Auth middleware configured with a secret and an expected issuer. -/
def authCfgIssuer : AuthConfig := { jwtSecret := "s", jwtIssuer := "issuer" }

/-- A valid HS256 token carrying the expected issuer, expiring at 2000. -/
def hs256Token : JwtToken :=
  { alg := .HS256, sigValid := true, expiresAt := some 2000,
    issuer := "issuer" }

/-- C6 counterexample: a well-signed, unexpired HS384 token is accepted
by `validateToken` (and the request is forwarded as authenticated), so
it is not the case that every token whose `alg` differs from HS256 is
rejected with 401. -/
theorem auth_accepts_hs384_counterexample :
    hs384Token.alg ≠ JwtAlg.HS256 ∧
      validateToken authCfgNoIssuer 1700000000 hs384Token = .ok hs384Token ∧
      authHandle authCfgNoIssuer 1700000000 "/api" (.ok hs384Token) =
        .authenticated "u1" "" "" := by
  exact ⟨by decide, rfl, rfl⟩

/-- C6 amended: `validateToken` succeeds exactly when the token's `alg`
is in the HMAC family (HS256, HS384 or HS512), its HMAC signature
verifies with the configured secret, its `exp` (when present) is not
before `now`, and — when an issuer is configured — its `iss` matches;
tokens with `alg = none` or any non-HMAC algorithm are rejected, and a
validation failure is answered 401 on every non-skipped path. -/
theorem validateToken_amended :
    ∀ (cfg : AuthConfig) (now : Int) (tok : JwtToken),
      (validateToken cfg now tok = .ok tok ↔
        (isHMAC tok.alg = true ∧ tok.sigValid = true ∧
          (∀ e, tok.expiresAt = some e → now ≤ e) ∧
          (cfg.jwtIssuer ≠ "" → tok.issuer = cfg.jwtIssuer))) ∧
      (∀ t, validateToken cfg now tok = .ok t → t = tok) ∧
      (∀ path msg,
        cfg.skipPaths.any (fun sp => sp.toList.isPrefixOf path.toList) = false →
        validateToken cfg now tok = .error msg →
        authHandle cfg now path (.ok tok) = .unauthorized) := by
  intro cfg now tok
  have hshape : ∀ t, validateToken cfg now tok = .ok t → t = tok := by
    intro t h
    unfold validateToken at h
    cases hp : jwtParseWithClaims now tok with
    | error e =>
      rw [hp] at h
      cases h
    | ok t' =>
      have ht' : t' = tok := by
        unfold jwtParseWithClaims at hp
        split at hp
        · cases hp
        · split at hp
          · cases hp
          · split at hp
            · split at hp
              · cases hp
              · cases hp
                rfl
            · cases hp
              rfl
      rw [ht'] at hp
      rw [hp] at h
      change (if cfg.jwtIssuer ≠ "" ∧ tok.issuer ≠ cfg.jwtIssuer then
          Except.error "invalid token issuer"
        else
          match tok.expiresAt with
          | some e =>
            if e < now then Except.error "token expired" else Except.ok tok
          | none => Except.ok tok) = Except.ok t at h
      split at h
      · cases h
      · split at h
        · split at h
          · cases h
          · cases h
            rfl
        · cases h
          rfl
  refine ⟨?_, hshape, ?_⟩
  · constructor
    · intro h
      have hA : isHMAC tok.alg = true := by
        by_contra hA
        rw [Bool.not_eq_true] at hA
        have hv : validateToken cfg now tok = .error "unexpected signing method" := by
          unfold validateToken jwtParseWithClaims
          rw [if_pos hA]
        rw [hv] at h
        cases h
      have hS : tok.sigValid = true := by
        by_contra hS
        rw [Bool.not_eq_true] at hS
        have hv : validateToken cfg now tok = .error "token signature is invalid" := by
          simp [validateToken, jwtParseWithClaims, hA, hS]
        rw [hv] at h
        cases h
      have hE : ∀ e, tok.expiresAt = some e → now ≤ e := by
        intro e he
        by_contra hgt
        have hlt : e < now := by omega
        have hv : validateToken cfg now tok = .error "token is expired" := by
          simp [validateToken, jwtParseWithClaims, hA, hS, he, hlt]
        rw [hv] at h
        cases h
      refine ⟨hA, hS, hE, ?_⟩
      intro hne
      by_contra hneq
      cases he : tok.expiresAt with
      | none =>
        have hv : validateToken cfg now tok = .error "invalid token issuer" := by
          simp [validateToken, jwtParseWithClaims, hA, hS, he, hne, hneq]
        rw [hv] at h
        cases h
      | some e =>
        have hnlt : ¬ e < now := by
          have := hE e he
          omega
        have hv : validateToken cfg now tok = .error "invalid token issuer" := by
          simp [validateToken, jwtParseWithClaims, hA, hS, he, hnlt, hne, hneq]
        rw [hv] at h
        cases h
    · rintro ⟨hA, hS, hE, hI⟩
      have hiss : ¬ (cfg.jwtIssuer ≠ "" ∧ tok.issuer ≠ cfg.jwtIssuer) := by
        rintro ⟨h1, h2⟩
        exact h2 (hI h1)
      cases he : tok.expiresAt with
      | none => simp [validateToken, jwtParseWithClaims, hA, hS, he, hiss]
      | some e =>
        have hnlt : ¬ e < now := by
          have := hE e he
          omega
        simp [validateToken, jwtParseWithClaims, hA, hS, he, hiss, hnlt]
  · intro path msg hskip herr
    unfold authHandle
    rw [if_neg (by rw [hskip]; simp)]
    show (match validateToken cfg now tok with
      | .error _ => AuthOutcome.unauthorized
      | .ok t => .authenticated t.userId t.email (joinComma t.roles)) =
        AuthOutcome.unauthorized
    rw [herr]

/-- Witness for `validateToken_amended`: a valid HS256 token with a
matching issuer passes, and an `alg = none` token is answered 401 on a
non-skipped path. -/
theorem validateToken_amended_witness :
    validateToken authCfgIssuer 1000 hs256Token = .ok hs256Token ∧
      authHandle authCfgIssuer 1000 "/private" (.ok algNoneToken) =
        .unauthorized :=
  ⟨(validateToken_amended authCfgIssuer 1000 hs256Token).1.mpr
      ⟨rfl, rfl, fun e he => by simp [hs256Token] at he; omega, fun _ => rfl⟩,
    (validateToken_amended authCfgIssuer 1000 algNoneToken).2.2 "/private"
      "unexpected signing method" rfl rfl⟩
/-! ## TLS certificate resolution (internal/tls/manager.go)

The manual store `m.certificates` maps host strings to parsed keypairs.
A keypair is identified by the file pair it was loaded from.  The store
is an association list whose newest binding wins, matching Go map
assignment order in `loadCertificate`. -/

structure TLSCert where
  certFile : String
  keyFile : String
  deriving Repr, DecidableEq

structure CertificateConfig where
  hosts : List String
  certFile : String
  keyFile : String
  deriving Repr, DecidableEq

/-- Truncation of a host at the first `':'`:
`if colonIndex := strings.Index(h, ":"); ... h[:colonIndex]`, the snippet
`Manager.GetTLSConfig` applies to the SNI and
`server.findMatchingRoute` applies to the request host. -/
def stripPort (h : String) : String :=
  String.mk (h.toList.takeWhile (· ≠ ':'))

/-- The store writes of `Manager.loadCertificate` for one entry:
`m.certificates[host] = &cert` for each configured host. -/
def loadCertificate (store : List (String × TLSCert))
    (cfg : CertificateConfig) : List (String × TLSCert) :=
  cfg.hosts.foldl
    (fun st host => (host, ⟨cfg.certFile, cfg.keyFile⟩) :: st) store

/-- `Manager.loadManualCertificates`: load every configured entry in
order into an initially empty store (file I/O, parsing and expiry
validation are assumed to succeed — on any failure the manager aborts
with an error and no store is produced). -/
def loadManualCertificates (cfgs : List CertificateConfig) :
    List (String × TLSCert) :=
  cfgs.foldl loadCertificate []

inductive CertResult where
  | cert (c : TLSCert)
  | acme
  | err (msg : String)
  deriving Repr, DecidableEq

/-- The `GetCertificate` callback built by `Manager.GetTLSConfig`: strip
any `:port` from the client SNI; an empty name falls back to any stored
certificate (Go ranges over the map in unspecified order — modelled as
the first binding; the theorems only use that *some* stored pair is
returned); otherwise look the name up verbatim (no lowercasing) and on a
miss delegate to autocert when enabled, else fail. -/
def getCertificate (store : List (String × TLSCert)) (autoCertEnabled : Bool)
    (sni : String) : CertResult :=
  let requestedHost := stripPort sni
  if requestedHost = "" then
    match store with
    | [] => .err "no default certificate available"
    | (_, c) :: _ => .cert c
  else
    match store.lookup requestedHost with
    | some c => .cert c
    | none =>
      if autoCertEnabled then .acme
      else .err ("no certificate found for host: " ++ requestedHost)

/-- Lowercasing as the spec's claim describes it (`String.toLower` is
avoided only because its Lean implementation does not kernel-reduce). -/
def toLowerStr (s : String) : String :=
  String.mk (s.toList.map Char.toLower)

/-- C7 counterexample: the store holds a manual certificate for
`example.com`, and stripping the port and lowercasing the SNI
`EXAMPLE.COM:443` yields exactly that key — yet the resolver, which
never lowercases, misses the store and fails the handshake instead of
returning the certificate. -/
theorem tls_no_lowercase_counterexample :
    (loadManualCertificates
        [⟨["example.com"], "cert.pem", "key.pem"⟩]).lookup
        (toLowerStr (stripPort "EXAMPLE.COM:443")) =
      some ⟨"cert.pem", "key.pem"⟩ ∧
      getCertificate
        (loadManualCertificates [⟨["example.com"], "cert.pem", "key.pem"⟩])
        false "EXAMPLE.COM:443" =
        .err "no certificate found for host: EXAMPLE.COM" := by
  exact ⟨rfl, rfl⟩

/-- A binding found after folding host-keyed inserts over a store either
came from one of the inserted hosts or was already in the store. -/
lemma lookup_foldl_insert (cert : TLSCert) (hosts : List String)
    (store : List (String × TLSCert)) (host : String) (c : TLSCert) :
    (hosts.foldl (fun st h0 => (h0, cert) :: st) store).lookup host = some c →
    (host ∈ hosts ∧ c = cert) ∨ store.lookup host = some c := by
  induction hosts generalizing store with
  | nil => intro h; exact Or.inr h
  | cons h0 rest ih =>
    intro h
    rcases ih ((h0, cert) :: store) h with hin | hlk
    · exact Or.inl ⟨List.mem_cons_of_mem h0 hin.1, hin.2⟩
    · by_cases hbe : host == h0
      · simp only [List.lookup, hbe, if_pos] at hlk
        cases hlk
        exact Or.inl ⟨by simp [eq_of_beq hbe], rfl⟩
      · simp only [List.lookup, hbe] at hlk
        exact Or.inr hlk

/-- A store binding produced by loading always comes from some entry
listing that host. -/
lemma lookup_loadCertificate (store : List (String × TLSCert))
    (e : CertificateConfig) (host : String) (c : TLSCert) :
    (loadCertificate store e).lookup host = some c →
    (host ∈ e.hosts ∧ c = ⟨e.certFile, e.keyFile⟩) ∨
      store.lookup host = some c :=
  lookup_foldl_insert ⟨e.certFile, e.keyFile⟩ e.hosts store host c

/-- A binding of the full manual store comes from some configured
entry. -/
lemma lookup_loadManualCertificates (cfgs : List CertificateConfig)
    (host : String) (c : TLSCert) :
    (loadManualCertificates cfgs).lookup host = some c →
    ∃ e ∈ cfgs, host ∈ e.hosts ∧ c = ⟨e.certFile, e.keyFile⟩ := by
  unfold loadManualCertificates
  have main : ∀ (l : List CertificateConfig) (store : List (String × TLSCert)),
      (l.foldl loadCertificate store).lookup host = some c →
      (∃ e ∈ l, host ∈ e.hosts ∧ c = ⟨e.certFile, e.keyFile⟩) ∨
        store.lookup host = some c := by
    intro l
    induction l with
    | nil => intro store h; exact Or.inr h
    | cons e rest ih =>
      intro store h
      rcases ih (loadCertificate store e) h with ⟨e', he', hm⟩ | hlk
      · exact Or.inl ⟨e', List.mem_cons_of_mem e he', hm⟩
      · rcases lookup_loadCertificate store e host c hlk with hin | hst
        · exact Or.inl ⟨e, List.mem_cons_self e rest, hin⟩
        · exact Or.inr hst
  intro h
  rcases main cfgs [] h with hfound | hempty
  · exact hfound
  · cases hempty

/-- C7 amended: the resolver strips any `:port` from the SNI but does
*not* lowercase it; whenever the stripped SNI has a manual certificate
(an exact, case-sensitive store hit) it returns exactly that stored
keypair, which comes from a configured entry whose hosts list contains
that exact name; an empty SNI returns some stored certificate as a
default (when any exists). -/
theorem getCertificate_amended :
    ∀ (store : List (String × TLSCert)) (auto : Bool) (sni : String),
      (stripPort sni ≠ "" →
        ∀ c, store.lookup (stripPort sni) = some c →
          getCertificate store auto sni = .cert c) ∧
      (stripPort sni = "" → store ≠ [] →
        ∃ h c, (h, c) ∈ store ∧ getCertificate store auto sni = .cert c) ∧
      (∀ entries host c,
        (loadManualCertificates entries).lookup host = some c →
        ∃ e ∈ entries, host ∈ e.hosts ∧ c = ⟨e.certFile, e.keyFile⟩) := by
  intro store auto sni
  refine ⟨?_, ?_, ?_⟩
  · intro hne c hlk
    unfold getCertificate
    rw [if_neg hne, hlk]
  · intro hemp hne
    cases store with
    | nil => exact absurd rfl hne
    | cons b rest =>
      refine ⟨b.1, b.2, List.mem_cons_self b rest, ?_⟩
      unfold getCertificate
      rw [if_pos hemp]
  · exact fun entries host c h => lookup_loadManualCertificates entries host c h

/-- The manual entries used by the C7 witness. -/
def demoCertEntries : List CertificateConfig :=
  [⟨["a.example", "b.example"], "ab.pem", "ab.key"⟩,
    ⟨["c.example"], "c.pem", "c.key"⟩]

/-- The store those entries load into. -/
def demoCertStore : List (String × TLSCert) :=
  loadManualCertificates demoCertEntries

/-- Witness for `getCertificate_amended`: a two-entry store resolves
`a.example:8443` to the first entry's keypair, serves some certificate
when the SNI is empty, and every store hit traces back to an entry
listing the host. -/
theorem getCertificate_amended_witness :
    getCertificate demoCertStore false "a.example:8443" =
        .cert ⟨"ab.pem", "ab.key"⟩ ∧
      (∃ h c, (h, c) ∈ demoCertStore ∧
        getCertificate demoCertStore false "" = .cert c) ∧
      (∃ e ∈ demoCertEntries, "c.example" ∈ e.hosts ∧
        (⟨"c.pem", "c.key"⟩ : TLSCert) = ⟨e.certFile, e.keyFile⟩) :=
  ⟨(getCertificate_amended demoCertStore false "a.example:8443").1
      (by decide) ⟨"ab.pem", "ab.key"⟩ rfl,
    (getCertificate_amended demoCertStore false "").2.1 rfl (by decide),
    (getCertificate_amended demoCertStore false "").2.2 demoCertEntries
      "c.example" ⟨"c.pem", "c.key"⟩ rfl⟩

/-! ## Router (internal/proxy/server.go, findMatchingRoute)

`server.findMatchingRoute` walks the declared rules and returns the
first whose host, path and method checks all pass (the Go loop
`continue`s past a rule when any check fails, which is the conjunction
below). -/

structure RouteRule where
  host : String
  path : String
  methods : List String
  upstream : String := ""
  deriving Repr, DecidableEq

/-- Go `strings.TrimSuffix(path, "/*")` in the branch where the suffix
is known to be present: the path minus its last two characters. -/
def dropStarSuffix (s : String) : String :=
  String.mk (s.toList.take (s.toList.length - 2))

/-- One rule's checks from `server.findMatchingRoute`: a non-empty rule
host must equal the request host truncated at its first `':'`; a
non-empty rule path ending in `/*` demands the trimmed path as a prefix
of the request path, otherwise exact equality; a non-empty method list
must contain the request method. -/
def ruleMatches (r : Request) (rule : RouteRule) : Bool :=
  (rule.host == "" || rule.host == stripPort r.host) &&
  (rule.path == "" ||
    (if ("/*".toList).isSuffixOf rule.path.toList then
      ((dropStarSuffix rule.path).toList).isPrefixOf r.path.toList
    else r.path == rule.path)) &&
  (rule.methods.isEmpty || rule.methods.contains r.method)

/-- `server.findMatchingRoute`: first match in declared order. -/
def findMatchingRoute (r : Request) : List RouteRule → Option RouteRule
  | [] => none
  | rule :: rest =>
    if ruleMatches r rule then some rule else findMatchingRoute r rest

/-- The matching predicate exactly as the claim words it: host empty or
equal to the `:port`-stripped request host; if the rule path ends in
`/*` the request path must extend the rule path minus its last two
characters, otherwise the paths must be equal (no empty-path clause);
method list empty or containing the request method. -/
def claimRuleMatches (r : Request) (rule : RouteRule) : Bool :=
  (rule.host == "" || rule.host == stripPort r.host) &&
  (if ("/*".toList).isSuffixOf rule.path.toList then
    ((dropStarSuffix rule.path).toList).isPrefixOf r.path.toList
  else r.path == rule.path) &&
  (rule.methods.isEmpty || rule.methods.contains r.method)

/-- The fragment of `validateRouteRule` (internal/config, validation)
that constrains the matcher's inputs: rule host and path are non-empty
and the path starts with `/`. -/
def routeRuleValid (rule : RouteRule) : Bool :=
  rule.host != "" && rule.path != "" &&
    ("/".toList).isPrefixOf rule.path.toList

inductive DispatchOutcome where
  | notFound404
  | matched (rule : RouteRule)
  deriving Repr, DecidableEq

/-- The route phase of `server.createMainHandler`: a request with no
matching rule is answered 404 immediately (`http.NotFound`) — the
route-scoped middleware chain is never built; otherwise the matched rule
proceeds to rewrite, upstream lookup and the route middleware. -/
def routeDispatch (rules : List RouteRule) (r : Request) : DispatchOutcome :=
  match findMatchingRoute r rules with
  | none => .notFound404
  | some rule => .matched rule

/-- On rules with a non-empty path the code's checks agree with the
claim's wording; they differ only on the empty path, which the code
treats as a wildcard. -/
lemma ruleMatches_eq_claim (r : Request) (rule : RouteRule)
    (h : rule.path ≠ "") : ruleMatches r rule = claimRuleMatches r rule := by
  unfold ruleMatches claimRuleMatches
  have hb : (rule.path == "") = false := by
    simp [h]
  rw [hb, Bool.false_or]

/-- On a validated rule list (route validation rejects empty hosts and
paths) the router's loop is the first match of the claim's predicate. -/
lemma findMatchingRoute_eq_find (rules : List RouteRule) (r : Request) :
    (∀ rule ∈ rules, routeRuleValid rule = true) →
    findMatchingRoute r rules = rules.find? (claimRuleMatches r) := by
  induction rules with
  | nil =>
    intro _
    rfl
  | cons rule rest ih =>
    intro hval
    have hv := hval rule (List.mem_cons_self _ _)
    have hpath : rule.path ≠ "" := by
      unfold routeRuleValid at hv
      simp only [Bool.and_eq_true, bne_iff_ne, ne_eq] at hv
      exact hv.1.2
    have ihm := ih fun ru hru => hval ru (List.mem_cons_of_mem _ hru)
    by_cases hm : claimRuleMatches r rule = true
    · rw [findMatchingRoute, ruleMatches_eq_claim r rule hpath, if_pos hm,
        List.find?_cons_of_pos _ hm]
    · rw [findMatchingRoute, ruleMatches_eq_claim r rule hpath, if_neg hm,
        List.find?_cons_of_neg _ hm, ihm]

/-- Routing table for the C8 theorems. -/
def demoRules : List RouteRule :=
  [{ host := "localhost", path := "/api/*", methods := ["GET", "POST"],
      upstream := "api-service" },
    { host := "localhost", path := "/health", methods := [],
      upstream := "health-service" }]

/-! ## Rate-limit middleware (internal/middleware/ratelimit.go)

`RateLimitMiddleware` keeps a per-key registry of token-bucket limiters
from `golang.org/x/time/rate`.  Within the handling of one request no
time passes in the model, so a limiter is just its current token count;
`rate.NewLimiter(limit, burst)` starts with a full bucket of `burst`
tokens and `Allow` takes one token when at least one is available. -/

structure RateLimitConfig where
  requestsPerSecond : Int
  burst : Int
  keyFunc : String
  deriving Repr, DecidableEq

/-- The configuration part of `NewRateLimitMiddleware`: defaults 10
requests/second, burst 20 and key `"ip"`, each overridden when the
parameter map carries an integer (resp. string) value. -/
def newRateLimitConfig (rps burst : Option Int) (keyFunc : Option String) :
    RateLimitConfig :=
  { requestsPerSecond := rps.getD 10
    burst := burst.getD 20
    keyFunc := keyFunc.getD "ip" }

/-- A `rate.Limiter` at a single instant. -/
structure RateLimiter where
  tokens : Int
  deriving Repr, DecidableEq

/-- `rate.Limiter.Allow` with no elapsed time: take a token when one is
available. -/
def limiterAllow (l : RateLimiter) : Bool × RateLimiter :=
  if 1 ≤ l.tokens then (true, { tokens := l.tokens - 1 }) else (false, l)

structure RateLimitState where
  config : RateLimitConfig
  limiters : List (String × RateLimiter)
  deriving Repr, DecidableEq

/-- `NewRateLimitMiddleware`: fresh configuration and an empty limiter
registry (`make(map[string]*rate.Limiter)`). -/
def newRateLimitMiddleware (rps burst : Option Int) (kf : Option String) :
    RateLimitState :=
  { config := newRateLimitConfig rps burst kf, limiters := [] }

/-- `RateLimitMiddleware.getKey`: `"ip"` hashes the client IP (the
package-level `getClientIP`), `"user"` prefers the `X-User-ID` header
with IP fallback, `"global"` is the constant key, anything else falls
back to the client IP. -/
def rlGetKey (cfg : RateLimitConfig) (r : Request) : String :=
  match cfg.keyFunc with
  | "ip" => rateLimitGetClientIP r
  | "user" =>
    if r.xUserID ≠ "" then r.xUserID else rateLimitGetClientIP r
  | "global" => "global"
  | _ => rateLimitGetClientIP r

/-- `RateLimitMiddleware.getLimiter`: return the registered limiter for
the key, creating a full-bucket `rate.NewLimiter(rps, burst)` on first
use. -/
def rlGetLimiter (st : RateLimitState) (key : String) :
    RateLimiter × RateLimitState :=
  match st.limiters.lookup key with
  | some l => (l, st)
  | none =>
    ({ tokens := st.config.burst },
      { st with limiters := (key, { tokens := st.config.burst }) :: st.limiters })

inductive RLOutcome where
  | limited
  | forwarded
  deriving Repr, DecidableEq

/-- `RateLimitMiddleware.Handle` for one request: fetch the limiter for
the request's key; a denied `Allow` answers 429 with the rate-limit
headers, an allowed one forwards to the wrapped handler. -/
def rateLimitHandle (st : RateLimitState) (r : Request) :
    RLOutcome × RateLimitState :=
  let key := rlGetKey st.config r
  let got := rlGetLimiter st key
  let res := limiterAllow got.1
  if res.1 then
    (.forwarded, { got.2 with limiters := (key, res.2) :: got.2.limiters })
  else (.limited, got.2)

/-- The `rate_limit` case of middleware validation (internal/config):
both `requests_per_second` and `burst` must be present as positive
integers. -/
def rateLimitParamsValid (rps burst : Option Int) : Bool :=
  (match rps with
   | some v => decide (0 < v)
   | none => false) &&
  (match burst with
   | some v => decide (0 < v)
   | none => false)

/-- A middleware chain entry (`config.MiddlewareChain`), carrying the
parameters a rate-limit factory call reads. -/
structure MwDef where
  name : String
  mtype : String
  enabled : Bool
  rps : Option Int := none
  burst : Option Int := none
  keyFunc : Option String := none
  deriving Repr, DecidableEq

/-- Projection of `server.applyRouteMiddleware` to the rate-limit
instances it creates.  The function runs inside the per-request handler:
for each route-referenced name it scans the chain for the first enabled
entry of that name and, when one with a non-empty name is found, calls
`middlewareFactory.Create` afresh — so every `rate_limit` entry yields a
brand-new `RateLimitMiddleware` whose registry starts empty for this
request. -/
def applyRouteRateLimiters (chain : List MwDef) (routeMw : List String) :
    List RateLimitState :=
  routeMw.filterMap fun nm =>
    match chain.find? (fun d => d.name == nm && d.enabled) with
    | some d =>
      if d.name != "" && d.mtype == "rate_limit" then
        some (newRateLimitMiddleware d.rps d.burst d.keyFunc)
      else none
    | none => none

/-- A rate-limit middleware whose registry is empty and whose burst is
at least one always admits the request. -/
lemma rateLimitHandle_fresh (st : RateLimitState) (r : Request)
    (hempty : st.limiters = []) (hb : 1 ≤ st.config.burst) :
    (rateLimitHandle st r).1 = .forwarded := by
  unfold rateLimitHandle rlGetLimiter limiterAllow
  rw [hempty]
  simp [hb]

/-- Every instance `applyRouteMiddleware` builds for a request starts
with an empty limiter registry. -/
lemma applyRouteRateLimiters_empty (chain : List MwDef)
    (routeMw : List String) :
    ∀ st ∈ applyRouteRateLimiters chain routeMw, st.limiters = [] := by
  intro st hst
  rcases List.mem_filterMap.mp hst with ⟨nm, _, hnm⟩
  split at hnm
  · split at hnm
    · cases hnm
      rfl
    · cases hnm
  · cases hnm

/-- Middleware validation forces an effective burst of at least one
(when it passes, `burst` is a present positive integer). -/
lemma rateLimitParamsValid_burst (rps burst : Option Int) (kf : Option String)
    (hvalid : rateLimitParamsValid rps burst = true) :
    1 ≤ (newRateLimitConfig rps burst kf).burst := by
  unfold rateLimitParamsValid at hvalid
  unfold newRateLimitConfig
  cases burst with
  | none => simp at hvalid
  | some b =>
    simp only [Bool.and_eq_true, decide_eq_true_eq] at hvalid
    simp only [Option.getD_some]
    omega

/-! ## The server pipeline: global middleware wraps routing
(internal/proxy/server.go, Start)

`Start` builds `handler := globalChain.Then(mainHandler)` (server.go:92):
every globally-enabled middleware wraps the main handler, so it runs on
*every* request — including requests that will match no route — before
`findMatchingRoute` is ever consulted.  The pipeline is modelled for a
global chain whose single enabled middleware is a rate limiter: its
`Handle` answers 429 on a denied `Allow` without calling `next`, and
otherwise calls `next`, which is the main handler's route phase. -/

inductive ServerResponse where
  | rateLimited
  | notFound
  | routed (rule : RouteRule)
  deriving Repr, DecidableEq

/-- `globalChain.Then(mainHandler)` for a global chain holding one
rate-limit middleware: the middleware's state is server-wide (created
once in `Start`, threaded across requests), the routing only runs when
the limiter admits. -/
def serverHandle (st : RateLimitState) (rules : List RouteRule)
    (r : Request) : ServerResponse × RateLimitState :=
  let res := rateLimitHandle st r
  match res.1 with
  | .limited => (.rateLimited, res.2)
  | .forwarded =>
    match routeDispatch rules r with
    | .notFound404 => (.notFound, res.2)
    | .matched rule => (.routed rule, res.2)

/-- A request no rule of `demoRules` accepts. -/
def noMatchReq : Request :=
  { host := "other.example", path := "/nope", method := "GET" }

/-- A server-wide (global-chain) rate limiter with burst 1 and the
constant `"global"` key, as `NewRateLimitMiddleware` creates it. -/
def globalRL : RateLimitState :=
  newRateLimitMiddleware (some 1) (some 1) (some "global")

/-- C8 counterexample: a request matching no route still runs the
globally-enabled middleware — the same unmatched request is answered 404
while the global rate limiter admits it, and 429 once the limiter is
depleted, so it is not answered "404 without any middleware running". -/
theorem notFound_global_middleware_counterexample :
    findMatchingRoute noMatchReq demoRules = none ∧
      (serverHandle globalRL demoRules noMatchReq).1 =
        ServerResponse.notFound ∧
      (serverHandle (serverHandle globalRL demoRules noMatchReq).2 demoRules
        noMatchReq).1 = ServerResponse.rateLimited := by
  exact ⟨rfl, rfl, rfl⟩

/-- C8 amended: the router returns the first rule in declared order
satisfying the claim's three conditions (host empty or equal to the
`:port`-stripped request Host; path `/*`-prefix or exact match; methods
empty or containing the request method — proved on validated rule lists,
whose paths route validation forces non-empty).  When no rule matches,
the main handler answers 404 without building any route-scoped
middleware chain — but the globally-enabled middleware chain wraps the
main handler and runs on every request, unmatched ones included: the
request is answered 404 exactly when no global middleware short-circuits
it (a denied global rate limiter answers 429 instead). -/
theorem findMatchingRoute_amended :
    ∀ (rules : List RouteRule) (r : Request) (st : RateLimitState),
      ((∀ rule ∈ rules, routeRuleValid rule = true) →
        findMatchingRoute r rules = rules.find? (claimRuleMatches r)) ∧
      (findMatchingRoute r rules = none →
        routeDispatch rules r = .notFound404 ∧
        (serverHandle st rules r).1 =
          (if (rateLimitHandle st r).1 = RLOutcome.forwarded then
            ServerResponse.notFound
          else ServerResponse.rateLimited)) := by
  intro rules r st
  refine ⟨findMatchingRoute_eq_find rules r, ?_⟩
  intro hnone
  have hdisp : routeDispatch rules r = .notFound404 := by
    unfold routeDispatch
    rw [hnone]
  refine ⟨hdisp, ?_⟩
  cases hres : (rateLimitHandle st r).1 with
  | limited =>
    rw [if_neg (fun h => by cases h)]
    simp only [serverHandle]
    rw [hres]
  | forwarded =>
    rw [if_pos rfl]
    simp only [serverHandle]
    rw [hres, hdisp]

/-- Witness for `findMatchingRoute_amended`: a validated table routes a
matching request by first match, and an unmatched request is 404 only
because the fresh global limiter admitted it. -/
theorem findMatchingRoute_amended_witness :
    findMatchingRoute
        { host := "localhost:8080", path := "/api/v1", method := "GET" }
        demoRules =
      demoRules.find?
        (claimRuleMatches
          { host := "localhost:8080", path := "/api/v1", method := "GET" }) ∧
      routeDispatch demoRules noMatchReq = .notFound404 ∧
      (serverHandle globalRL demoRules noMatchReq).1 =
        (if (rateLimitHandle globalRL noMatchReq).1 = RLOutcome.forwarded then
          ServerResponse.notFound
        else ServerResponse.rateLimited) :=
  ⟨(findMatchingRoute_amended demoRules
      { host := "localhost:8080", path := "/api/v1", method := "GET" }
      globalRL).1 (by decide),
    (findMatchingRoute_amended demoRules noMatchReq globalRL).2 (by decide)⟩

/-! ## Retry re-invokes the per-request rate-limit instance
(internal/proxy/server.go, createMainHandler + createRetryMiddleware)

`createMainHandler` builds `routeHandler := applyRouteMiddleware(proxy,
route)` once per request and then, when `route.RetryPolicy.Attempts > 0`,
wraps that same handler in the retry middleware (server.go:314-318).
Each retry attempt therefore re-invokes the *same* per-request
`RateLimitMiddleware` instance, whose registry persists across
attempts. -/

/-- The middleware state after `i` invocations within one request. -/
def rlStateAfter (st : RateLimitState) (r : Request) : Nat → RateLimitState
  | 0 => st
  | i + 1 => (rateLimitHandle (rlStateAfter st r i) r).2

/-- Attempt `i` of the route chain (one rate-limit middleware wrapping a
backend) as re-invoked by the retry middleware: the middleware consults
the registry advanced by the previous `i` invocations; a denied `Allow`
answers `http.Error(w, "Rate limit exceeded", 429)` without calling the
backend, an allowed one forwards to it. -/
def rlRouteHandler (backend : Nat → List WEvent) (st : RateLimitState)
    (r : Request) (i : Nat) : List WEvent :=
  match (rateLimitHandle (rlStateAfter st r i) r).1 with
  | .limited => [.writeHeader 429, .write "Rate limit exceeded\n"]
  | .forwarded => backend i

/-- A backend that answers 503 on every attempt. -/
def alwaysFailBackend : Nat → List WEvent :=
  fun _ => [.writeHeader 503, .write "bad gateway"]

/-- C10 counterexample: with a validated route-scoped rate limiter
(burst = 1) and a retry policy of `attempts = 1`, a 5xx first attempt
makes the retry middleware re-invoke the same instance, whose bucket is
now empty — the second attempt is answered 429 *within that same
request*, so the middleware does return 429 for it. -/
theorem routeRateLimit_429_on_retry_counterexample :
    rateLimitParamsValid (some 1) (some 1) = true ∧
      globalRL.limiters = [] ∧
      (rateLimitHandle globalRL noMatchReq).1 = RLOutcome.forwarded ∧
      (rateLimitHandle (rlStateAfter globalRL noMatchReq 1) noMatchReq).1 =
        RLOutcome.limited ∧
      (retryServe 1 (rlRouteHandler alwaysFailBackend globalRL noMatchReq)).1 =
        [.writeHeader 503, .write "bad gateway",
          .writeHeader 429, .write "Rate limit exceeded\n"] := by
  exact ⟨rfl, rfl, rfl, rfl, rfl⟩

/-- `RateLimitMiddleware.Handle` on a key with no registered limiter:
`getLimiter` creates a full bucket, then `Allow` admits exactly when the
burst affords a token. -/
lemma rateLimitHandle_lookup_none (st : RateLimitState) (r : Request)
    (hlk : st.limiters.lookup (rlGetKey st.config r) = none) :
    rateLimitHandle st r =
      if 1 ≤ st.config.burst then
        (RLOutcome.forwarded,
          { st with limiters :=
              (rlGetKey st.config r, { tokens := st.config.burst - 1 }) ::
                (rlGetKey st.config r, { tokens := st.config.burst }) ::
                  st.limiters })
      else
        (RLOutcome.limited,
          { st with limiters :=
              (rlGetKey st.config r, { tokens := st.config.burst }) ::
                st.limiters }) := by
  simp only [rateLimitHandle, rlGetLimiter, limiterAllow, hlk]
  by_cases hb : 1 ≤ st.config.burst
  · simp [hb]
  · simp [hb]

/-- `RateLimitMiddleware.Handle` on a key holding a limiter with `tk`
tokens: `Allow` admits exactly when a token is available, and the
advanced limiter is written back. -/
lemma rateLimitHandle_lookup_some (st : RateLimitState) (r : Request)
    (tk : Int)
    (hlk : st.limiters.lookup (rlGetKey st.config r) = some { tokens := tk }) :
    rateLimitHandle st r =
      if 1 ≤ tk then
        (RLOutcome.forwarded,
          { st with limiters :=
              (rlGetKey st.config r, { tokens := tk - 1 }) :: st.limiters })
      else (RLOutcome.limited, st) := by
  simp only [rateLimitHandle, rlGetLimiter, limiterAllow, hlk]
  by_cases ht : 1 ≤ tk
  · simp [ht]
  · simp [ht]

/-- Across the invocations of one request, the instance's configuration
is unchanged and the limiter under the request's key holds
`max (burst - i) 0` tokens after `i` invocations. -/
lemma rlStateAfter_inv (st : RateLimitState) (r : Request)
    (hempty : st.limiters = []) (hb : 1 ≤ st.config.burst) :
    ∀ i : Nat, (rlStateAfter st r i).config = st.config ∧
      ((rlStateAfter st r i).limiters.lookup (rlGetKey st.config r) =
        match i with
        | 0 => none
        | _ + 1 => some { tokens := max (st.config.burst - (i : Int)) 0 }) := by
  intro i
  induction i with
  | zero =>
    refine ⟨rfl, ?_⟩
    show st.limiters.lookup (rlGetKey st.config r) = none
    rw [hempty]
    rfl
  | succ n ih =>
    obtain ⟨ihc, ihl⟩ := ih
    have hkey : rlGetKey (rlStateAfter st r n).config r =
        rlGetKey st.config r := by rw [ihc]
    cases n with
    | zero =>
      have hlk : (rlStateAfter st r 0).limiters.lookup
          (rlGetKey (rlStateAfter st r 0).config r) = none := by
        rw [hkey]
        exact ihl
      have hh := rateLimitHandle_lookup_none (rlStateAfter st r 0) r hlk
      rw [ihc, if_pos hb] at hh
      have hunf : rlStateAfter st r (0 + 1) =
          (rateLimitHandle (rlStateAfter st r 0) r).2 := rfl
      have hmax : max (st.config.burst - ((0 + 1 : Nat) : Int)) 0 =
          st.config.burst - 1 := by
        push_cast
        omega
      refine ⟨?_, ?_⟩
      · rw [hunf, hh]
      · rw [hunf, hh]
        simp [List.lookup, hmax]
        omega
    | succ m =>
      have hlk : (rlStateAfter st r (m + 1)).limiters.lookup
          (rlGetKey (rlStateAfter st r (m + 1)).config r) =
          some { tokens := max (st.config.burst - ((m + 1 : Nat) : Int)) 0 } := by
        rw [hkey]
        exact ihl
      have hh := rateLimitHandle_lookup_some (rlStateAfter st r (m + 1)) r
        (max (st.config.burst - ((m + 1 : Nat) : Int)) 0) hlk
      rw [ihc] at hh
      have hunf : rlStateAfter st r (m + 1 + 1) =
          (rateLimitHandle (rlStateAfter st r (m + 1)) r).2 := rfl
      by_cases ht : (1 : Int) ≤ max (st.config.burst - ((m + 1 : Nat) : Int)) 0
      · rw [if_pos ht] at hh
        have hmax : max (st.config.burst - ((m + 1 + 1 : Nat) : Int)) 0 =
            max (st.config.burst - ((m + 1 : Nat) : Int)) 0 - 1 := by
          push_cast at ht ⊢
          omega
        refine ⟨?_, ?_⟩
        · rw [hunf, hh]
        · rw [hunf, hh]
          simp [List.lookup, hmax]
          omega
      · rw [if_neg ht] at hh
        have hmax : max (st.config.burst - ((m + 1 : Nat) : Int)) 0 =
            max (st.config.burst - ((m + 1 + 1 : Nat) : Int)) 0 := by
          push_cast at ht ⊢
          omega
        refine ⟨?_, ?_⟩
        · rw [hunf, hh]
          exact ihc
        · rw [hunf, hh]
          exact ihl.trans (by simp [hmax]; omega)

/-- Within one request, attempt `i` of a middleware that started fresh
is admitted exactly while the bucket lasts: forwarded for `i < burst`,
429 afterwards. -/
lemma rlAttempt_status (st : RateLimitState) (r : Request)
    (hempty : st.limiters = []) (hb : 1 ≤ st.config.burst) (i : Nat) :
    (rateLimitHandle (rlStateAfter st r i) r).1 =
      (if (i : Int) < st.config.burst then RLOutcome.forwarded
      else RLOutcome.limited) := by
  obtain ⟨ihc, ihl⟩ := rlStateAfter_inv st r hempty hb i
  have hkey : rlGetKey (rlStateAfter st r i).config r =
      rlGetKey st.config r := by rw [ihc]
  cases i with
  | zero =>
    have hlk : (rlStateAfter st r 0).limiters.lookup
        (rlGetKey (rlStateAfter st r 0).config r) = none := by
      rw [hkey]
      exact ihl
    have hh := rateLimitHandle_lookup_none (rlStateAfter st r 0) r hlk
    rw [ihc, if_pos hb] at hh
    rw [hh,
      if_pos (show ((0 : Nat) : Int) < st.config.burst by push_cast; omega)]
  | succ m =>
    have hlk : (rlStateAfter st r (m + 1)).limiters.lookup
        (rlGetKey (rlStateAfter st r (m + 1)).config r) =
        some { tokens := max (st.config.burst - ((m + 1 : Nat) : Int)) 0 } := by
      rw [hkey]
      exact ihl
    have hh := rateLimitHandle_lookup_some (rlStateAfter st r (m + 1)) r
      (max (st.config.burst - ((m + 1 : Nat) : Int)) 0) hlk
    rw [ihc] at hh
    by_cases ht : (1 : Int) ≤ max (st.config.burst - ((m + 1 : Nat) : Int)) 0
    · rw [if_pos ht] at hh
      rw [hh,
        if_pos (show ((m + 1 : Nat) : Int) < st.config.burst by
          push_cast at ht ⊢
          omega)]
    · rw [if_neg ht] at hh
      rw [hh,
        if_neg (show ¬ ((m + 1 : Nat) : Int) < st.config.burst by
          push_cast at ht ⊢
          omega)]


/-- C10 amended: `applyRouteMiddleware` constructs brand-new middleware
instances per request, so a route-scoped rate-limit middleware begins
every request with an empty limiter registry and a full token bucket,
and — burst ≥ 1 being required by validation — its first invocation in
the request never returns 429.  However, a configured retry policy wraps
the same per-request chain, and each retry attempt re-invokes the same
instance whose registry persists across attempts: attempt `i` is
admitted exactly when `i < burst`, and a denied attempt is answered 429
within that same request (with burst = 1, already the first retry). -/
theorem routeRateLimit_amended :
    ∀ (chain : List MwDef) (routeMw : List String) (r : Request),
      (∀ st ∈ applyRouteRateLimiters chain routeMw,
        st.limiters = [] ∧
        (1 ≤ st.config.burst → (rateLimitHandle st r).1 = .forwarded)) ∧
      (∀ rps burst kf, rateLimitParamsValid rps burst = true →
        1 ≤ (newRateLimitConfig rps burst kf).burst ∧
        (rateLimitHandle (newRateLimitMiddleware rps burst kf) r).1 =
          .forwarded) ∧
      (∀ st : RateLimitState, st.limiters = [] → 1 ≤ st.config.burst →
        ∀ i : Nat, (rateLimitHandle (rlStateAfter st r i) r).1 =
          (if (i : Int) < st.config.burst then RLOutcome.forwarded
          else RLOutcome.limited)) ∧
      (∀ backend st i,
        (rateLimitHandle (rlStateAfter st r i) r).1 = RLOutcome.limited →
        rlRouteHandler backend st r i =
          [.writeHeader 429, .write "Rate limit exceeded\n"]) := by
  intro chain routeMw r
  refine ⟨?_, ?_, ?_, ?_⟩
  · intro st hst
    have hempty := applyRouteRateLimiters_empty chain routeMw st hst
    exact ⟨hempty, fun hb => rateLimitHandle_fresh st r hempty hb⟩
  · intro rps burst kf hvalid
    have hb := rateLimitParamsValid_burst rps burst kf hvalid
    exact ⟨hb, rateLimitHandle_fresh _ r rfl hb⟩
  · intro st hempty hb i
    exact rlAttempt_status st r hempty hb i
  · intro backend st i hlim
    unfold rlRouteHandler
    rw [hlim]

/-- Witness for `routeRateLimit_amended`: a fresh burst-1 instance
admits its first invocation, denies the second, and the denied retry
attempt emits the 429 response. -/
theorem routeRateLimit_amended_witness :
    ((newRateLimitMiddleware (some 5) (some 1) (some "ip")).limiters = [] ∧
      (rateLimitHandle (newRateLimitMiddleware (some 5) (some 1) (some "ip"))
        { remoteAddr := "1.2.3.4:80" }).1 = RLOutcome.forwarded) ∧
      (rateLimitHandle (rlStateAfter globalRL noMatchReq 1) noMatchReq).1 =
        RLOutcome.limited ∧
      rlRouteHandler alwaysFailBackend globalRL noMatchReq 1 =
        [.writeHeader 429, .write "Rate limit exceeded\n"] := by
  have h2 := ((routeRateLimit_amended [] [] { remoteAddr := "1.2.3.4:80" }).2.1
    (some 5) (some 1) (some "ip") (by decide)).2
  have h3 : (rateLimitHandle (rlStateAfter globalRL noMatchReq 1)
      noMatchReq).1 = RLOutcome.limited := by
    rw [(routeRateLimit_amended [] [] noMatchReq).2.2.1 globalRL rfl
      (by decide) 1]
    decide
  have h1 := ((routeRateLimit_amended
    [{ name := "rl", mtype := "rate_limit", enabled := true,
        rps := some 5, burst := some 1, keyFunc := some "ip" }]
    ["rl"] { remoteAddr := "1.2.3.4:80" }).1
    (newRateLimitMiddleware (some 5) (some 1) (some "ip")) (by decide)).1
  have h4 := (routeRateLimit_amended [] [] noMatchReq).2.2.2
    alwaysFailBackend globalRL 1 h3
  exact ⟨⟨h1, h2⟩, h3, h4⟩

end Sentinel
